import Mathlib

/-!
Verification development for the HyperDB repository: a shallow embedding of
`blockchain.py` (the `Block` / `Blockchain` classes) and of
`src/core/hyperledger_integrated_db.py` (the `HyperledgerIntegratedDB` class),
with theorems settling the behavioural claims stated about them.

Modelling conventions:
* Python dict/JSON payload values are embedded as the inductive `Value`.
  Floating-point values do not occur in any claim; numeric amounts and
  timestamps (Python floats from `time.time()`) are embedded as `Int`.
* Nondeterministic inputs of the code (`time.time()`, `uuid.uuid4()`) are
  passed as explicit arguments.
* The SHA-256-over-JSON digest of `Block.calculate_hash` is embedded as an
  abstract hash-function parameter `HashFn` producing the hex string; the
  control flow of the code depends only on the produced string.
* The unbounded proof-of-work `while` loop is embedded with explicit fuel;
  `none` means the search was still running after `fuel` extra nonces.
* The sqlite tables are embedded as in-memory lists of rows; `INSERT` appends,
  `UPDATE ... WHERE` maps over rows, `SELECT ... ORDER BY created_at` is a
  stable insertion sort on `created_at`.
-/

namespace HyperDB

/-- Embedded Python/JSON value, as found in record payloads and transactions. -/
inductive Value where
  | VNone : Value
  | VBool : Bool → Value
  | VInt : Int → Value
  | VStr : String → Value
  | VList : List Value → Value
  | VDict : List (String × Value) → Value
deriving Repr

/-- A Python dict with string keys, in insertion order (keys unique in use). -/
abbrev Dict := List (String × Value)

/-- Python `==` on embedded values. Note `True == 1` and `False == 0` hold in
Python because `bool` is a subclass of `int`; this is modelled faithfully. -/
def pyEq : Value → Value → Bool
  | .VNone, .VNone => true
  | .VBool a, .VBool b => a == b
  | .VBool a, .VInt n => (if a then (1 : Int) else 0) == n
  | .VInt n, .VBool a => n == (if a then (1 : Int) else 0)
  | .VInt m, .VInt n => m == n
  | .VStr s, .VStr t => s == t
  | .VList xs, .VList ys => pyEqList xs ys
  | .VDict xs, .VDict ys => pyEqPairs xs ys
  | _, _ => false
where
  pyEqList : List Value → List Value → Bool
    | [], [] => true
    | x :: xs, y :: ys => pyEq x y && pyEqList xs ys
    | _, _ => false
  pyEqPairs : List (String × Value) → List (String × Value) → Bool
    | [], [] => true
    | (k, v) :: xs, (l, w) :: ys => k == l && pyEq v w && pyEqPairs xs ys
    | _, _ => false

/-- Python truthiness of a value (`if value:`). -/
def pyTruthy : Value → Bool
  | .VNone => false
  | .VBool b => b
  | .VInt n => n != 0
  | .VStr s => s != ""
  | .VList l => !l.isEmpty
  | .VDict d => !d.isEmpty

/-- Truthiness of `d.get(k)`-style results (`None` for a missing key). -/
def pyTruthyOpt : Option Value → Bool
  | none => false
  | some v => pyTruthy v

/-- Python `k in d` on a dict. -/
def hasKey (d : Dict) (k : String) : Bool :=
  d.any (fun kv => kv.1 == k)

/-- Python `d.get(k)` / `d[k]` lookup (first occurrence; keys unique in use). -/
def dictLookup (d : Dict) (k : String) : Option Value :=
  match d with
  | [] => none
  | (l, v) :: rest => if l == k then some v else dictLookup rest k

/-- Python `d[k] = v`: replace in place if the key exists, else append. -/
def dictSet (d : Dict) (k : String) (v : Value) : Dict :=
  match d with
  | [] => [(k, v)]
  | (l, w) :: rest => if l == k then (l, v) :: rest else (l, w) :: dictSet rest k v

/-- `needle` starts `hay` (char-list prefix test, used for substring search). -/
def startsWith : List Char → List Char → Bool
  | _, [] => true
  | [], _ :: _ => false
  | h :: hs, n :: ns => h == n && startsWith hs ns

/-- Python `needle in hay` on strings: contiguous substring occurrence. -/
def charsContains (needle : List Char) : List Char → Bool
  | [] => startsWith [] needle
  | h :: t => startsWith (h :: t) needle || charsContains needle t

/-- Python `s.lower()` (ASCII case folding, as used by the repository). -/
def lowerChars (s : String) : List Char :=
  s.toList.map Char.toLower

/-! ## Ledger engine: `blockchain.py` -/

/-- A pending/ block transaction: the dict literal built by
`Blockchain.add_transaction` (and by the reward literal in
`mine_pending_transactions`), with exactly the five keys
`sender`, `recipient`, `amount`, `data`, `timestamp`. -/
structure Tx where
  sender : String
  recipient : String
  amount : Int
  data : Value
  timestamp : Int
deriving Repr

/-- `t.get(k)` on a transaction dict. Every transaction dict in the system is
built with exactly the five keys above, so any other key (in particular
`'id'`, looked up by `HyperledgerIntegratedDB.mine_block`) yields `None`. -/
def Tx.get (t : Tx) (k : String) : Option Value :=
  if k == "sender" then some (.VStr t.sender)
  else if k == "recipient" then some (.VStr t.recipient)
  else if k == "amount" then some (.VInt t.amount)
  else if k == "data" then some t.data
  else if k == "timestamp" then some (.VInt t.timestamp)
  else none

/-- A block: `Block.__init__` fields plus the derived stored `hash`. -/
structure Block where
  index : Nat
  transactions : List Tx
  timestamp : Int
  previous_hash : String
  nonce : Nat
  hash : String
deriving Repr

/-- Abstract digest over exactly the fields serialized by
`Block.calculate_hash` (index, transactions, timestamp, previous_hash,
nonce — the stored hash itself is not an input). -/
def HashFn : Type :=
  Nat → List Tx → Int → String → Nat → String

/-- `Block.calculate_hash`: recompute the digest from the stored fields. -/
def calculate_hash (H : HashFn) (b : Block) : String :=
  H b.index b.transactions b.timestamp b.previous_hash b.nonce

/-- `Block.__init__`: store the fields and derive `hash`. -/
def Block.make (H : HashFn) (index : Nat) (transactions : List Tx)
    (timestamp : Int) (previous_hash : String) (nonce : Nat) : Block :=
  { index := index, transactions := transactions, timestamp := timestamp,
    previous_hash := previous_hash, nonce := nonce,
    hash := H index transactions timestamp previous_hash nonce }

/-- The `Blockchain` object state. -/
structure Blockchain where
  chain : List Block
  difficulty : Nat
  pending_transactions : List Tx
  mining_reward : Int
deriving Repr

/-- `Blockchain.__init__` + `create_genesis_block`: genesis at index 0 with
`previous_hash = "0"`, empty transactions, default nonce 0; reward 10. -/
def Blockchain.init (H : HashFn) (difficulty : Nat) (ts : Int) : Blockchain :=
  { chain := [Block.make H 0 [] ts "0" 0], difficulty := difficulty,
    pending_transactions := [], mining_reward := 10 }

/-- `Blockchain.get_latest_block` (`chain[-1]`; `none` only on an empty chain,
which would raise in Python and never occurs after `__init__`). -/
def get_latest_block (bc : Blockchain) : Option Block :=
  bc.chain.getLast?

/-- `Blockchain.add_transaction`: append to pending, return `len(chain) + 1`. -/
def add_transaction (bc : Blockchain) (sender recipient : String) (amount : Int)
    (data : Value) (ts : Int) : Blockchain × Nat :=
  let t : Tx := { sender := sender, recipient := recipient, amount := amount,
                  data := data, timestamp := ts }
  ({ bc with pending_transactions := bc.pending_transactions ++ [t] },
   bc.chain.length + 1)

/-- `"0" * difficulty`, the proof-of-work target. -/
def targetChars (d : Nat) : List Char :=
  List.replicate d '0'

/-- `block.hash[:difficulty] == target`: the first `d` characters are `'0'`. -/
def powOk (d : Nat) (h : String) : Bool :=
  h.toList.take d == targetChars d

/-- `Blockchain.mine_block`: the proof-of-work `while` loop, with fuel.
On entry the stored hash is tested; on mismatch the nonce is incremented and
the hash recomputed. `none` models the loop still running after `fuel` steps. -/
def mine_block (H : HashFn) (d : Nat) : Nat → Block → Option Block
  | fuel, b =>
    if powOk d b.hash then some b
    else
      match fuel with
      | 0 => none
      | fuel + 1 =>
          mine_block H d fuel
            { b with nonce := b.nonce + 1,
                     hash := H b.index b.transactions b.timestamp
                               b.previous_hash (b.nonce + 1) }

/-- `Blockchain.mine_pending_transactions`: build the candidate block at
`index = len(chain)` from the current pending transactions and the tip hash,
run proof-of-work, append to the chain, and reset pending to exactly one
reward transaction `system -> miner` of `mining_reward`. `ts` is the block
timestamp, `ts2` the reward-transaction timestamp. -/
def mine_pending_transactions (H : HashFn) (fuel : Nat) (bc : Blockchain)
    (miner : String) (ts ts2 : Int) : Option (Blockchain × Block) :=
  match bc.chain.getLast? with
  | none => none
  | some tip =>
    let b0 := Block.make H bc.chain.length bc.pending_transactions ts tip.hash 0
    match mine_block H bc.difficulty fuel b0 with
    | none => none
    | some b =>
        some ({ bc with
                  chain := bc.chain ++ [b],
                  pending_transactions :=
                    [{ sender := "system", recipient := miner,
                       amount := bc.mining_reward, data := .VDict [],
                       timestamp := ts2 }] }, b)

/-- The loop body of `Blockchain.is_chain_valid` for indices `1 ..`:
`prev` is `chain[i-1]`, the list holds `chain[i ..]`. -/
def validLinks (H : HashFn) : Block → List Block → Bool
  | _, [] => true
  | prev, cur :: rest =>
    if cur.hash != calculate_hash H cur then false
    else if cur.previous_hash != prev.hash then false
    else validLinks H cur rest

/-- `Blockchain.is_chain_valid`: checks recomputed hash and back-link for
every index from 1 on; the genesis block itself is never re-hashed. -/
def is_chain_valid (H : HashFn) (bc : Blockchain) : Bool :=
  match bc.chain with
  | [] => true
  | g :: rest => validLinks H g rest

/-! ## Schema registry: `DataField`, `DataModel`, `_validate_data` -/

/-- `DataField` dataclass. `default = VNone` embeds Python `default = None`
(the code tests `field.default is not None`). -/
structure DataField where
  name : String
  type : String
  required : Bool
  default : Value
  description : String
deriving Repr

/-- `DataModel` dataclass (ordered field list). -/
structure DataModel where
  name : String
  fields : List DataField
  description : String
  created_at : Int
  version : String
deriving Repr

/-- `isinstance(value, str)`. -/
def pyIsStr : Value → Bool
  | .VStr _ => true
  | _ => false

/-- `isinstance(value, int)`. In Python `bool` is a subclass of `int`, so
`isinstance(True, int)` is true; modelled faithfully. -/
def pyIsInt : Value → Bool
  | .VInt _ => true
  | .VBool _ => true
  | _ => false

/-- `isinstance(value, (int, float))` (floats do not occur in the claims). -/
def pyIsReal : Value → Bool
  | .VInt _ => true
  | .VBool _ => true
  | _ => false

/-- `isinstance(value, bool)`: strict. -/
def pyIsBool : Value → Bool
  | .VBool _ => true
  | _ => false

/-- `isinstance(value, (int, float, str))`, the `datetime` rule. -/
def pyIsDatetime : Value → Bool
  | .VInt _ => true
  | .VBool _ => true
  | .VStr _ => true
  | _ => false

/-- `isinstance(value, (dict, list))`, the `json` rule. -/
def pyIsJson : Value → Bool
  | .VDict _ => true
  | .VList _ => true
  | _ => false

/-- `value is None`. -/
def isVNone : Value → Bool
  | .VNone => true
  | _ => false

/-- The `ValueError` message for a missing required field (quote punctuation
of the Python message elided). -/
def requiredErr (name : String) : String :=
  "Required field " ++ name ++ " is missing"

/-- One iteration of the `for field in model.fields` loop of
`_validate_data`: first the required-and-absent check (which fires before any
default is inserted), then default insertion (only when `default is not None`),
then the type check on a present value. Returns the possibly-extended dict. -/
def validateField (data : Dict) (f : DataField) : Except String Dict :=
  if f.required && !(hasKey data f.name) then
    .error (requiredErr f.name)
  else
    let data :=
      if !(hasKey data f.name) && !(isVNone f.default) then
        dictSet data f.name f.default
      else data
    if hasKey data f.name then
      let value := (dictLookup data f.name).getD .VNone
      if f.type == "text" && !(pyIsStr value) then
        .error ("Field " ++ f.name ++ " must be a string")
      else if f.type == "integer" && !(pyIsInt value) then
        .error ("Field " ++ f.name ++ " must be an integer")
      else if f.type == "real" && !(pyIsReal value) then
        .error ("Field " ++ f.name ++ " must be a number")
      else if f.type == "boolean" && !(pyIsBool value) then
        .error ("Field " ++ f.name ++ " must be a boolean")
      else if f.type == "datetime" && !(pyIsDatetime value) then
        .error ("Field " ++ f.name ++ " must be a datetime")
      else if f.type == "json" && !(pyIsJson value) then
        .error ("Field " ++ f.name ++ " must be a JSON object or array")
      else .ok data
    else .ok data

/-- The field loop of `_validate_data`, threading the mutated dict. -/
def validateFields (fields : List DataField) (data : Dict) : Except String Dict :=
  match fields with
  | [] => .ok data
  | f :: rest =>
    match validateField data f with
    | .error e => .error e
    | .ok d => validateFields rest d

/-- `HyperledgerIntegratedDB._validate_data`: `.ok` returns the payload after
in-place default insertion; `.error` carries the `ValueError` message. -/
def _validate_data (data : Dict) (model : DataModel) : Except String Dict :=
  validateFields model.fields data

/-! ## Record store: `HyperledgerIntegratedDB` -/

/-- A row of the `data_records` table. -/
structure RecordRow where
  id : String
  model_name : String
  data : Dict
  created_at : Int
  updated_at : Int
  blockchain_transaction_id : Option String
  blockchain_block_index : Option Nat
deriving Repr

/-- A row of the `blockchain_transactions` table. -/
structure TxLogRow where
  id : String
  transaction_type : String
  data_id : Option Value
  model_name : Option Value
  transaction_data : Value
  timestamp : Int
  block_index : Option Nat
deriving Repr

/-- A row of the `blockchain_blocks` table. -/
structure BlockRow where
  block_index : Nat
  hash : String
  previous_hash : String
  timestamp : Int
  nonce : Nat
  transactions_data : List Tx
deriving Repr

/-- The summary dict returned by `HyperledgerIntegratedDB.mine_block`. -/
structure MineSummary where
  index : Nat
  hash : String
  timestamp : Int
  transaction_count : Nat
deriving Repr, DecidableEq

/-- The `HyperledgerIntegratedDB` state: the in-memory blockchain and model
registry plus the sqlite tables. -/
structure DBState where
  blockchain : Blockchain
  data_models : List (String × DataModel)
  data_records : List RecordRow
  blockchain_transactions : List TxLogRow
  blockchain_blocks : List BlockRow
deriving Repr

/-- Lookup in the `data_models` registry dict. -/
def lookupModel (models : List (String × DataModel)) (name : String) :
    Option DataModel :=
  match models with
  | [] => none
  | (k, m) :: rest => if k == name then some m else lookupModel rest name

/-- The inner transaction dict literal built by `_add_to_blockchain` (this is
the dict that carries the `id` key; it is stored as the `data` payload of the
ledger-level wrapper transaction). -/
def innerTxDict (transaction_id transaction_type : String) (data : Value)
    (now : Int) : Value :=
  .VDict [("id", .VStr transaction_id), ("type", .VStr transaction_type),
          ("data", data), ("timestamp", .VInt now),
          ("sender", .VStr "system"), ("recipient", .VStr "system"),
          ("amount", .VInt 0)]

/-- The `data` dict literal staged by `add_data`. -/
def dataCreationPayload (record_id model_name : String) (data : Dict)
    (created_at : Int) : Dict :=
  [("record_id", .VStr record_id), ("model_name", .VStr model_name),
   ("data", .VDict data), ("created_at", .VInt created_at)]

/-- The `data` dict literal staged by `update_data`. -/
def dataUpdatePayload (record_id model_name : String) (prev next : Dict)
    (updated_at : Int) : Dict :=
  [("record_id", .VStr record_id), ("model_name", .VStr model_name),
   ("previous_data", .VDict prev), ("new_data", .VDict next),
   ("updated_at", .VInt updated_at)]

/-- `HyperledgerIntegratedDB._add_to_blockchain`: build the inner transaction
dict (which carries the `id` key), stage it as the `data` payload of a ledger
transaction, and insert a `blockchain_transactions` row with `block_index`
NULL. Returns the new state and the transaction id. -/
def _add_to_blockchain (st : DBState) (transaction_type : String)
    (data : Value) (transaction_id : String) (now : Int) : DBState × String :=
  let transaction : Value := innerTxDict transaction_id transaction_type data now
  let bc := (add_transaction st.blockchain "system" "system" 0 transaction now).1
  let dataDict : Dict := match data with
    | .VDict d => d
    | _ => []
  let logRow : TxLogRow :=
    { id := transaction_id, transaction_type := transaction_type,
      data_id := dictLookup dataDict "record_id",
      model_name := dictLookup dataDict "model_name",
      transaction_data := transaction, timestamp := now, block_index := none }
  ({ st with blockchain := bc,
             blockchain_transactions := st.blockchain_transactions ++ [logRow] },
   transaction_id)

/-- `HyperledgerIntegratedDB.add_data`: unknown model or validation failure
returns `(st, none)` (the raised `ValueError` is caught, nothing persisted);
on success the row is inserted, a `data_creation` transaction staged, and the
row linked to the transaction id. `record_id`, `now`, `transaction_id`,
`txnow` stand for the `uuid4`/`time.time()` draws. -/
def add_data (st : DBState) (model_name : String) (data : Dict)
    (record_id : String) (now : Int) (transaction_id : String) (txnow : Int) :
    DBState × Option String :=
  match lookupModel st.data_models model_name with
  | none => (st, none)
  | some model =>
    match _validate_data data model with
    | .error _ => (st, none)
    | .ok data =>
      let row : RecordRow :=
        { id := record_id, model_name := model_name, data := data,
          created_at := now, updated_at := now,
          blockchain_transaction_id := none, blockchain_block_index := none }
      let st := { st with data_records := st.data_records ++ [row] }
      let res := _add_to_blockchain st "data_creation"
        (.VDict (dataCreationPayload record_id model_name data now))
        transaction_id txnow
      let st := { res.1 with
                    data_records := res.1.data_records.map fun r =>
                      if r.id == record_id then
                        { r with blockchain_transaction_id := some res.2 }
                      else r }
      (st, some record_id)

/-- `SELECT * FROM data_records WHERE id = ?` + `fetchone()`. -/
def findRecord (rows : List RecordRow) (record_id : String) : Option RecordRow :=
  match rows with
  | [] => none
  | r :: rest => if r.id == record_id then some r else findRecord rest record_id

/-- `HyperledgerIntegratedDB.update_data`: unknown id or validation failure
returns `(st, false)`; on success the stored payload is replaced wholesale,
`updated_at` set, and a `data_update` transaction staged embedding both the
previous and the new payload. Validation runs only if the model still exists. -/
def update_data (st : DBState) (record_id : String) (data : Dict) (now : Int)
    (transaction_id : String) (txnow : Int) : DBState × Bool :=
  match findRecord st.data_records record_id with
  | none => (st, false)
  | some row =>
    let vres : Except String Dict :=
      match lookupModel st.data_models row.model_name with
      | some m => _validate_data data m
      | none => .ok data
    match vres with
    | .error _ => (st, false)
    | .ok data =>
      let st := { st with
                    data_records := st.data_records.map fun r =>
                      if r.id == record_id then
                        { r with data := data, updated_at := now }
                      else r }
      let res := _add_to_blockchain st "data_update"
        (.VDict (dataUpdatePayload record_id row.model_name row.data data now))
        transaction_id txnow
      (res.1, true)

/-- Stable insertion of a row into a list ascending by `created_at`
(models `ORDER BY created_at`). -/
def insertByCreated (r : RecordRow) : List RecordRow → List RecordRow
  | [] => [r]
  | s :: rest =>
    if s.created_at ≤ r.created_at then s :: insertByCreated r rest
    else r :: s :: rest

/-- Stable sort by `created_at`. -/
def sortByCreated : List RecordRow → List RecordRow
  | [] => []
  | r :: rest => insertByCreated r (sortByCreated rest)

/-- Truthiness of the optional `model_name` argument (`if model_name:`). -/
def optStrTruthy : Option String → Bool
  | none => false
  | some s => s != ""

/-- `HyperledgerIntegratedDB.get_all_data`: all rows, optionally filtered by
model name, ordered by `created_at`. -/
def get_all_data (st : DBState) (model_name : Option String) : List RecordRow :=
  let rows :=
    if optStrTruthy model_name then
      st.data_records.filter fun r => r.model_name == model_name.getD ""
    else st.data_records
  sortByCreated rows

/-- One iteration of the criteria loop of `search_data`: missing key is a
non-match; if both the criterion and the stored value are strings the test is
case-insensitive substring (`value.lower() in stored.lower()`), otherwise
Python `!=` decides. -/
def criterionMatch (record_data : Dict) (k : String) (v : Value) : Bool :=
  match dictLookup record_data k with
  | none => false
  | some stored =>
    match v, stored with
    | .VStr vs, .VStr ss => charsContains (lowerChars vs) (lowerChars ss)
    | _, _ => pyEq stored v

/-- The conjunction over all criteria (the loop with early `break`). -/
def matchesCriteria (record_data : Dict) : List (String × Value) → Bool
  | [] => true
  | (k, v) :: rest =>
    if criterionMatch record_data k v then matchesCriteria record_data rest
    else false

/-- `HyperledgerIntegratedDB.search_data`: empty criteria returns everything,
otherwise the records satisfying every criterion. -/
def search_data (st : DBState) (model_name : Option String)
    (criteria : List (String × Value)) : List RecordRow :=
  let all_data := get_all_data st model_name
  if criteria.isEmpty then all_data
  else all_data.filter fun r => matchesCriteria r.data criteria

/-- `UPDATE blockchain_transactions SET block_index = ? WHERE id = ?`, with
the id value taken from `transaction['id']` of a block transaction. -/
def setTxBlockIndex (rows : List TxLogRow) (idVal : Value) (bi : Nat) :
    List TxLogRow :=
  rows.map fun r =>
    if pyEq (.VStr r.id) idVal then { r with block_index := some bi } else r

/-- `UPDATE data_records SET blockchain_block_index = ? WHERE id = ?`, with
the id value taken from `transaction['data']['record_id']`. -/
def setRecordBlockIndex (rows : List RecordRow) (idVal : Value) (bi : Nat) :
    List RecordRow :=
  rows.map fun r =>
    if pyEq (.VStr r.id) idVal then
      { r with blockchain_block_index := some bi }
    else r

/-- The back-fill loop of `HyperledgerIntegratedDB.mine_block`: for each
transaction of the sealed block, `if transaction.get('id'):` update the
transaction-log row, and then `if transaction.get('data', {}).get('record_id'):`
update the record row. (The block's transactions are the wrapper dicts built
by `Blockchain.add_transaction`, whose keys are only sender / recipient /
amount / data / timestamp.) -/
def backfillStep (bi : Nat) (st : DBState) (t : Tx) : DBState :=
  if pyTruthyOpt (Tx.get t "id") then
    let st := { st with
                  blockchain_transactions :=
                    setTxBlockIndex st.blockchain_transactions
                      ((Tx.get t "id").getD .VNone) bi }
    let innerData : Dict := match t.data with
      | .VDict d => d
      | _ => []
    if pyTruthyOpt (dictLookup innerData "record_id") then
      { st with
          data_records :=
            setRecordBlockIndex st.data_records
              ((dictLookup innerData "record_id").getD .VNone) bi }
    else st
  else st

/-- The back-fill loop over the sealed block's transactions. -/
def backfill (bi : Nat) (st : DBState) : List Tx → DBState
  | [] => st
  | t :: rest => backfill bi (backfillStep bi st t) rest

/-- `HyperledgerIntegratedDB.mine_block`: no-op on an empty pending list;
otherwise seal via `mine_pending_transactions("system")`, persist the block
row, run the back-fill loop, and return the summary dict. A fuel-exhausted
proof-of-work search is modelled as `(st, none)` (in Python the call would
simply not have returned yet). -/
def db_mine_block (H : HashFn) (fuel : Nat) (st : DBState) (ts ts2 : Int) :
    DBState × Option MineSummary :=
  if st.blockchain.pending_transactions.isEmpty then (st, none)
  else
    match mine_pending_transactions H fuel st.blockchain "system" ts ts2 with
    | none => (st, none)
    | some (bc, block) =>
      let st := { st with blockchain := bc }
      let st := { st with
                    blockchain_blocks := st.blockchain_blocks ++
                      [{ block_index := block.index, hash := block.hash,
                         previous_hash := block.previous_hash,
                         timestamp := block.timestamp, nonce := block.nonce,
                         transactions_data := block.transactions }] }
      let st := backfill block.index st block.transactions
      (st, some { index := block.index, hash := block.hash,
                  timestamp := block.timestamp,
                  transaction_count := block.transactions.length })

/-! ## Spec-side definitions (for refinement claims) -/

/-- Placeholder block for out-of-range `List.getD` indexing. -/
def dummyBlock : Block :=
  { index := 0, transactions := [], timestamp := 0, previous_hash := "",
    nonce := 0, hash := "" }

/-- Modelled from the spec's words (§8): `verify(c)` should hold iff for every
index `i`, `c[i].hash == recompute(c[i])` and (`i == 0` or
`c[i].previous_hash == c[i-1].hash`) — in particular the genesis hash is
recomputed too. -/
def spec_chain_valid (H : HashFn) (chain : List Block) : Bool :=
  (List.range chain.length).all fun i =>
    let b := chain.getD i dummyBlock
    (b.hash == calculate_hash H b) &&
      (i == 0 || b.previous_hash == (chain.getD (i - 1) dummyBlock).hash)

/-- The text content of a value, when it is text. -/
def asStr : Value → Option String
  | .VStr s => some s
  | _ => none

/-- Modelled from the spec's words (§4.3): a criterion matches when the key is
present and, if both the criterion value and the stored value are text, the
criterion is a case-insensitive substring of the stored value; otherwise when
the stored value equals the criterion value (Python equality, i.e. after
bool/int coercion). Absence of the key is a non-match. -/
def spec_criterion_match (record_data : Dict) (k : String) (v : Value) : Bool :=
  match dictLookup record_data k with
  | none => false
  | some stored =>
    match asStr v, asStr stored with
    | some vs, some ss => charsContains (lowerChars vs) (lowerChars ss)
    | _, _ => pyEq stored v

/-! ## Concrete instances used by witnesses and counterexamples -/

/-- Count of leading `'0'` characters of a hex digest. -/
def leadingZeroCount : List Char → Nat
  | [] => 0
  | c :: rest => if c == '0' then leadingZeroCount rest + 1 else 0

/-- A concrete digest instance: every block hashes to `"h"`. -/
def Hconst : HashFn := fun _ _ _ _ _ => "h"

/-- A concrete digest instance: every block hashes to `"00"`. -/
def H00 : HashFn := fun _ _ _ _ _ => "00"

/-- A required integer field with no default (`qty` of the spec's `Item`). -/
def qtyField : DataField :=
  { name := "qty", type := "integer", required := true, default := .VNone,
    description := "" }

/-- The spec's `Item` model: one required integer field `qty`. -/
def itemModel : DataModel :=
  { name := "Item", fields := [qtyField], description := "", created_at := 0,
    version := "1.0" }

/-- A fresh store (difficulty 0 so that sealing is immediate) with the `Item`
model registered and nothing staged. -/
def itemState : DBState :=
  { blockchain := Blockchain.init Hconst 0 0,
    data_models := [("Item", itemModel)],
    data_records := [], blockchain_transactions := [], blockchain_blocks := [] }

/-- `itemState` after three successful `add_data` calls (T1, T2, T3). -/
def c1_staged : DBState :=
  (add_data (add_data (add_data itemState
        "Item" [("qty", .VInt 1)] "r1" 10 "t1" 11).1
      "Item" [("qty", .VInt 2)] "r2" 20 "t2" 21).1
    "Item" [("qty", .VInt 3)] "r3" 30 "t3" 31).1

/-- `c1_staged` after one `mine_block()` call. -/
def c1_mined : DBState × Option MineSummary :=
  db_mine_block Hconst 9 c1_staged 100 101

/-- A chain whose genesis block's stored hash (`"X"`) differs from its
recomputed digest (`Hconst` gives `"h"`): a tampered genesis. -/
def c2bc : Blockchain :=
  { chain := [{ index := 0, transactions := [], timestamp := 0,
                previous_hash := "0", nonce := 0, hash := "X" }],
    difficulty := 2, pending_transactions := [], mining_reward := 10 }

/-- A staged transfer used by the difficulty-1 sealing instance. -/
def c3tx : Tx :=
  { sender := "a", recipient := "b", amount := 1, data := .VDict [],
    timestamp := 5 }

/-- A difficulty-1 ledger whose digest (`H00`) always has two leading zeros. -/
def c3bc : Blockchain :=
  { chain := [Block.make H00 0 [] 0 "0" 0], difficulty := 1,
    pending_transactions := [c3tx], mining_reward := 10 }

/-- `mine_pending_transactions` on `c3bc`. -/
def c3res : Option (Blockchain × Block) :=
  mine_pending_transactions H00 5 c3bc "m" 7 8

/-- The block `c3res` seals. -/
def c3block : Block :=
  { index := 1, transactions := [c3tx], timestamp := 7, previous_hash := "00",
    nonce := 0, hash := "00" }

/-- The ledger state `c3res` produces. -/
def c3bc' : Blockchain :=
  { chain := [Block.make H00 0 [] 0 "0" 0, c3block], difficulty := 1,
    pending_transactions := [{ sender := "system", recipient := "m",
                               amount := 10, data := .VDict [],
                               timestamp := 8 }],
    mining_reward := 10 }

/-- A required integer field that also carries a default. -/
def c4Field : DataField :=
  { name := "qty", type := "integer", required := true, default := .VInt 5,
    description := "" }

/-- A model whose only field is required and defaulted. -/
def c4Model : DataModel :=
  { name := "Item", fields := [c4Field], description := "", created_at := 0,
    version := "1.0" }

/-- A staged transfer for the difficulty-0 sealing instances. -/
def txW : Tx :=
  { sender := "alice", recipient := "bob", amount := 3, data := .VDict [],
    timestamp := 4 }

/-- A difficulty-0 ledger with one pending transaction. -/
def bcW : Blockchain :=
  { chain := [Block.make Hconst 0 [] 0 "0" 0], difficulty := 0,
    pending_transactions := [txW], mining_reward := 10 }

/-- The block sealed from `bcW`. -/
def c6block : Block :=
  { index := 1, transactions := [txW], timestamp := 7, previous_hash := "h",
    nonce := 0, hash := "h" }

/-- The ledger state after sealing `bcW` with miner `"m"`. -/
def c6bc' : Blockchain :=
  { chain := [Block.make Hconst 0 [] 0 "0" 0, c6block], difficulty := 0,
    pending_transactions := [{ sender := "system", recipient := "m",
                               amount := 10, data := .VDict [],
                               timestamp := 8 }],
    mining_reward := 10 }

/-- Required text field `a`. -/
def aField : DataField :=
  { name := "a", type := "text", required := true, default := .VNone,
    description := "" }

/-- Optional text field `b` with no default. -/
def bField : DataField :=
  { name := "b", type := "text", required := false, default := .VNone,
    description := "" }

/-- A model with fields `{a, b}`. -/
def abModel : DataModel :=
  { name := "Pair", fields := [aField, bField], description := "",
    created_at := 0, version := "1.0" }

/-- A persisted record that currently has both fields `a` and `b`. -/
def c7row : RecordRow :=
  { id := "r1", model_name := "Pair",
    data := [("a", .VStr "1"), ("b", .VStr "2")], created_at := 5,
    updated_at := 5, blockchain_transaction_id := some "t0",
    blockchain_block_index := none }

/-- A store holding `c7row` under the `Pair` model. -/
def c7State : DBState :=
  { blockchain := Blockchain.init Hconst 0 0,
    data_models := [("Pair", abModel)],
    data_records := [c7row], blockchain_transactions := [],
    blockchain_blocks := [] }

/-- A store over the difficulty-0 ledger `bcW` (one pending transaction). -/
def c9State : DBState :=
  { blockchain := bcW, data_models := [], data_records := [],
    blockchain_transactions := [], blockchain_blocks := [] }

/-- `c9State` after one `mine_block()` call. -/
def c9Mined : DBState × Option MineSummary :=
  db_mine_block Hconst 3 c9State 7 8

/-! ## General lemmas about the ledger engine -/

/-- The proof-of-work loop only ever touches `nonce` and `hash`. -/
theorem mine_block_preserves (H : HashFn) (d : Nat) :
    ∀ (fuel : Nat) (b b' : Block), mine_block H d fuel b = some b' →
      b'.index = b.index ∧ b'.transactions = b.transactions ∧
        b'.timestamp = b.timestamp ∧ b'.previous_hash = b.previous_hash := by
  intro fuel
  induction fuel with
  | zero =>
    intro b b' h
    rw [mine_block] at h
    by_cases hp : powOk d b.hash
    · simp [hp] at h
      subst h
      exact ⟨rfl, rfl, rfl, rfl⟩
    · simp [hp] at h
  | succ n ih =>
    intro b b' h
    rw [mine_block] at h
    by_cases hp : powOk d b.hash
    · simp [hp] at h
      subst h
      exact ⟨rfl, rfl, rfl, rfl⟩
    · simp [hp] at h
      simpa using ih _ b' h

/-- A successfully mined block's stored hash meets the difficulty target. -/
theorem mine_block_pow (H : HashFn) (d : Nat) :
    ∀ (fuel : Nat) (b b' : Block), mine_block H d fuel b = some b' →
      powOk d b'.hash = true := by
  intro fuel
  induction fuel with
  | zero =>
    intro b b' h
    rw [mine_block] at h
    by_cases hp : powOk d b.hash
    · simp [hp] at h
      subst h
      exact hp
    · simp [hp] at h
  | succ n ih =>
    intro b b' h
    rw [mine_block] at h
    by_cases hp : powOk d b.hash
    · simp [hp] at h
      subst h
      exact hp
    · simp [hp] at h
      exact ih _ _ h

/-- At difficulty 0 the target prefix is empty, so every hash qualifies. -/
theorem powOk_zero (h : String) : powOk 0 h = true := by
  simp [powOk, targetChars]

/-- At difficulty 0 the loop exits at once, with the block untouched. -/
theorem mine_block_zero (H : HashFn) (fuel : Nat) (b : Block) :
    mine_block H 0 fuel b = some b := by
  rw [mine_block.eq_def]
  simp [powOk_zero]

/-- Unfolded boolean structure of one `is_chain_valid` loop iteration. -/
theorem validLinks_cons (H : HashFn) (g cur : Block) (rest : List Block) :
    validLinks H g (cur :: rest) = true ↔
      cur.hash = calculate_hash H cur ∧ cur.previous_hash = g.hash ∧
        validLinks H cur rest = true := by
  rw [validLinks]
  by_cases h1 : cur.hash = calculate_hash H cur
  · by_cases h2 : cur.previous_hash = g.hash
    · simp [h1, h2]
    · simp [h1, h2]
  · simp [h1]

/-- The loop of `is_chain_valid`, characterized by chain indices: with the
chain `g :: rest`, the loop accepts iff every index `i ≥ 1` passes the
recomputed-hash check and the back-link check. -/
theorem validLinks_iff_indices (H : HashFn) :
    ∀ (rest : List Block) (g : Block),
      validLinks H g rest = true ↔
        ∀ i, 0 < i → i < (g :: rest).length →
          ((g :: rest).getD i dummyBlock).hash =
              calculate_hash H ((g :: rest).getD i dummyBlock) ∧
            ((g :: rest).getD i dummyBlock).previous_hash =
              ((g :: rest).getD (i - 1) dummyBlock).hash := by
  intro rest
  induction rest with
  | nil =>
    intro g
    constructor
    · intro _ i hi1 hi2
      simp at hi2
      omega
    · intro _
      rfl
  | cons cur rest ih =>
    intro g
    rw [validLinks_cons]
    constructor
    · rintro ⟨hh, hp, hrec⟩ i hi1 hi2
      match i, hi1 with
      | 1, _ =>
        simpa using ⟨hh, hp⟩
      | (j + 2), _ =>
        have hj := (ih cur).mp hrec (j + 1) (by omega)
          (by simp at hi2 ⊢; omega)
        simpa using hj
    · intro hall
      refine ⟨?_, ?_, ?_⟩
      · simpa using (hall 1 (by omega) (by simp)).1
      · simpa using (hall 1 (by omega) (by simp)).2
      · refine (ih cur).mpr ?_
        intro j hj1 hj2
        have := hall (j + 1) (by omega) (by simp at hj2 ⊢; omega)
        have hgd : (g :: cur :: rest)[j]?.getD dummyBlock =
            (cur :: rest)[j - 1]?.getD dummyBlock := by
          match j, hj1 with
          | (k + 1), _ => simp
        simpa [hgd] using this

/-- One loop iteration of `search_data` agrees with the spec's wording. -/
theorem criterionMatch_eq_spec (rd : Dict) (k : String) (v : Value) :
    criterionMatch rd k v = spec_criterion_match rd k v := by
  rw [criterionMatch, spec_criterion_match]
  cases h : dictLookup rd k with
  | none => rfl
  | some stored => cases v <;> cases stored <;> simp [asStr]

/-- The early-break criteria loop is the conjunction over all criteria. -/
theorem matchesCriteria_iff_all (rd : Dict) :
    ∀ (cs : List (String × Value)),
      matchesCriteria rd cs = true ↔
        ∀ kv ∈ cs, criterionMatch rd kv.1 kv.2 = true := by
  intro cs
  induction cs with
  | nil => simp [matchesCriteria]
  | cons kv rest ih =>
    obtain ⟨k, v⟩ := kv
    rw [matchesCriteria]
    by_cases hc : criterionMatch rd k v
    · simp [hc, ih]
    · simp [hc]

/-- Insertion into the `created_at`-sorted list preserves membership. -/
theorem mem_insertByCreated (r s : RecordRow) :
    ∀ (l : List RecordRow), s ∈ insertByCreated r l ↔ s = r ∨ s ∈ l := by
  intro l
  induction l with
  | nil => simp [insertByCreated]
  | cons x rest ih =>
    rw [insertByCreated]
    by_cases hc : x.created_at ≤ r.created_at
    · rw [if_pos hc, List.mem_cons, ih, List.mem_cons]
      tauto
    · rw [if_neg hc, List.mem_cons, List.mem_cons]

/-- `ORDER BY created_at` only permutes the rows. -/
theorem mem_sortByCreated (s : RecordRow) :
    ∀ (l : List RecordRow), s ∈ sortByCreated l ↔ s ∈ l := by
  intro l
  induction l with
  | nil => simp [sortByCreated]
  | cons x rest ih =>
    rw [sortByCreated, mem_insertByCreated, ih, List.mem_cons]

/-- What a successful `mine_pending_transactions` returns: the input ledger
with the sealed block appended and pending reset to the single reward
transaction, the block carrying the staged transactions at index
`len(chain)` with the tip's hash as back-link. -/
theorem mine_pending_result (H : HashFn) (fuel : Nat) (bc : Blockchain)
    (miner : String) (ts ts2 : Int) (bc' : Blockchain) (b : Block)
    (h : mine_pending_transactions H fuel bc miner ts ts2 = some (bc', b)) :
    bc' = { bc with
              chain := bc.chain ++ [b],
              pending_transactions :=
                [{ sender := "system", recipient := miner,
                   amount := bc.mining_reward, data := .VDict [],
                   timestamp := ts2 }] } ∧
    b.index = bc.chain.length ∧
    b.transactions = bc.pending_transactions ∧
    (∀ tip, bc.chain.getLast? = some tip → b.previous_hash = tip.hash) := by
  rw [mine_pending_transactions] at h
  cases htip : bc.chain.getLast? with
  | none => rw [htip] at h; exact absurd h (by simp)
  | some tip =>
    rw [htip] at h
    simp only [] at h
    cases hmb : mine_block H bc.difficulty fuel
        (Block.make H bc.chain.length bc.pending_transactions ts tip.hash 0) with
    | none => rw [hmb] at h; exact absurd h (by simp)
    | some b2 =>
      rw [hmb] at h
      simp at h
      obtain ⟨hbc', hb⟩ := h
      obtain ⟨hi, htx, hts, hph⟩ :=
        mine_block_preserves H bc.difficulty fuel _ _ hmb
      subst hb
      refine ⟨hbc'.symm, hi, htx, ?_⟩
      intro tip2 htip2
      have he : tip = tip2 := Option.some.inj htip2
      rw [← he]
      exact hph

/-- The back-fill loop body never touches the in-memory blockchain. -/
theorem backfillStep_blockchain (bi : Nat) (st : DBState) (t : Tx) :
    (backfillStep bi st t).blockchain = st.blockchain := by
  rw [backfillStep]
  split
  · simp only []
    split <;> rfl
  · rfl

/-- The back-fill loop never touches the in-memory blockchain. -/
theorem backfill_blockchain (bi : Nat) :
    ∀ (l : List Tx) (st : DBState),
      (backfill bi st l).blockchain = st.blockchain := by
  intro l
  induction l with
  | nil => intro st; rfl
  | cons t rest ih =>
    intro st
    rw [backfill]
    rw [ih, backfillStep_blockchain]

/-- A `mine_block()` call on a store whose ledger has difficulty 0 and a
non-empty pending list always seals: it returns a summary whose transaction
count is the pending count, and the chain grows by one. -/
theorem db_mine_block_zero_difficulty (H : HashFn) (fuel : Nat) (st : DBState)
    (ts ts2 : Int) (tip : Block)
    (hd : st.blockchain.difficulty = 0)
    (hne : st.blockchain.pending_transactions.isEmpty = false)
    (htip : st.blockchain.chain.getLast? = some tip) :
    ∃ (st2 : DBState) (s2 : MineSummary),
      db_mine_block H fuel st ts ts2 = (st2, some s2) ∧
      s2.transaction_count = st.blockchain.pending_transactions.length ∧
      st2.blockchain.chain.length = st.blockchain.chain.length + 1 := by
  rw [db_mine_block]
  rw [mine_pending_transactions, htip, hd]
  simp only [mine_block_zero, hne, Bool.false_eq_true, if_false]
  refine ⟨_, _, rfl, rfl, ?_⟩
  rw [backfill_blockchain]
  simp

/-! ## Claim C1 -/

/-- **C1** (code bug): after staging three `data_creation` transactions via
three successful `add_record` calls and one `mine()`, the sealed block holds
the 3 transactions and the chain grew by 1 — but no back-fill happens at all:
every persisted record row keeps `blockchain_block_index = NULL` and every
transaction-log row keeps `block_index = NULL`, because the block's
transactions are the wrapper dicts built by `Blockchain.add_transaction`
(keys sender/recipient/amount/data/timestamp), so `transaction.get('id')` is
always `None` and the back-fill loop body never runs. -/
theorem C1_mine_block_performs_no_backfill :
    c1_mined.2 = some { index := 1, hash := "h", timestamp := 100,
                        transaction_count := 3 } ∧
    c1_mined.1.blockchain.chain.length = 2 ∧
    (c1_mined.1.data_records.map fun r => (r.id, r.blockchain_block_index)) =
      [("r1", none), ("r2", none), ("r3", none)] ∧
    (c1_mined.1.blockchain_transactions.map fun r => (r.id, r.block_index)) =
      [("t1", none), ("t2", none), ("t3", none)] ∧
    (∀ t : Tx, Tx.get t "id" = none) :=
  ⟨rfl, rfl, rfl, rfl, fun _ => rfl⟩

/-! ## Claim C2 -/

/-- **C2** (counterexample): a chain whose genesis block's stored hash (`"X"`)
differs from its recomputed digest still makes `is_chain_valid` return true,
while the spec's all-indices predicate (which re-hashes index 0 too) is false.
The claimed iff therefore fails at `i = 0`. -/
theorem C2_counterexample :
    is_chain_valid Hconst c2bc = true ∧
      spec_chain_valid Hconst c2bc.chain = false :=
  ⟨rfl, rfl⟩

/-- **C2** (amended): `is_chain_valid` returns true iff every index `i ≥ 1`
of the chain has its stored hash equal to the recomputed digest and its
`previous_hash` equal to the previous block's stored hash; the genesis
block's own stored hash is never recomputed. -/
theorem C2_verify_checks_indices_from_one (H : HashFn) (bc : Blockchain) :
    is_chain_valid H bc = true ↔
      ∀ i, 0 < i → i < bc.chain.length →
        (bc.chain.getD i dummyBlock).hash =
            calculate_hash H (bc.chain.getD i dummyBlock) ∧
          (bc.chain.getD i dummyBlock).previous_hash =
            (bc.chain.getD (i - 1) dummyBlock).hash := by
  obtain ⟨c, diff, pend, rew⟩ := bc
  rcases c with _ | ⟨g, rest⟩
  · simp [is_chain_valid]
  · simpa [is_chain_valid] using validLinks_iff_indices H rest g

/-! ## Claim C3 -/

/-- **C3** (counterexample): with the difficulty set to 1 and a digest whose
value is `"00"`, sealing succeeds and the sealed block's hash has two leading
`'0'` characters, not exactly one — proof-of-work only constrains the first
`difficulty` characters. -/
theorem C3_counterexample :
    c3res = some (c3bc', c3block) ∧
    leadingZeroCount c3block.hash.toList = 2 ∧
    c3bc.difficulty = 1 :=
  ⟨rfl, rfl, rfl⟩

/-- **C3** (amended): every successful seal at difficulty `d` produces a block
whose first `d` hash characters are all `'0'` (at least `d` leading zeros),
and at difficulty 0 the search exits immediately: the candidate block built
with `nonce = 0` is returned unchanged. -/
theorem C3_seal_hash_meets_difficulty (H : HashFn) (fuel : Nat)
    (bc : Blockchain) (miner : String) (ts ts2 : Int) :
    (∀ (bc' : Blockchain) (b : Block),
        mine_pending_transactions H fuel bc miner ts ts2 = some (bc', b) →
          b.hash.toList.take bc.difficulty = targetChars bc.difficulty) ∧
    (bc.difficulty = 0 → ∀ (tip : Block), bc.chain.getLast? = some tip →
        mine_pending_transactions H fuel bc miner ts ts2 =
          some ({ bc with
                    chain := bc.chain ++
                      [Block.make H bc.chain.length bc.pending_transactions
                        ts tip.hash 0],
                    pending_transactions :=
                      [{ sender := "system", recipient := miner,
                         amount := bc.mining_reward, data := .VDict [],
                         timestamp := ts2 }] },
                Block.make H bc.chain.length bc.pending_transactions
                  ts tip.hash 0) ∧
          (Block.make H bc.chain.length bc.pending_transactions
            ts tip.hash 0).nonce = 0) := by
  constructor
  · intro bc' b h
    rw [mine_pending_transactions] at h
    cases htip : bc.chain.getLast? with
    | none => rw [htip] at h; exact absurd h (by simp)
    | some tip =>
      rw [htip] at h
      simp only [] at h
      cases hmb : mine_block H bc.difficulty fuel
          (Block.make H bc.chain.length bc.pending_transactions ts tip.hash 0) with
      | none => rw [hmb] at h; exact absurd h (by simp)
      | some b2 =>
        rw [hmb] at h
        simp at h
        obtain ⟨-, hb⟩ := h
        subst hb
        have hpow := mine_block_pow H bc.difficulty fuel _ _ hmb
        simpa [powOk] using hpow
  · intro hd tip htip
    rw [mine_pending_transactions, htip, hd]
    simp only [mine_block_zero]
    exact ⟨trivial, rfl⟩

/-- Witness for C3 at concrete inputs: the difficulty-1 seal over `H00` meets
the target, and the difficulty-0 seal of `bcW` returns at once with nonce 0. -/
theorem C3_witness :
    c3block.hash.toList.take c3bc.difficulty = targetChars c3bc.difficulty ∧
    mine_pending_transactions Hconst 3 bcW "m" 7 8 = some (c6bc', c6block) ∧
    c6block.nonce = 0 :=
  ⟨(C3_seal_hash_meets_difficulty H00 5 c3bc "m" 7 8).1 c3bc' c3block rfl,
   ((C3_seal_hash_meets_difficulty Hconst 3 bcW "m" 7 8).2 rfl
       (Block.make Hconst 0 [] 0 "0" 0) rfl).1.trans rfl,
   rfl⟩

/-! ## Claim C4 -/

/-- **C4** (counterexample): a required integer field that carries default 5
and is absent from the payload makes `_validate_data` fail with the
missing-required error — the required check fires before default insertion,
contradicting the claimed defaults-first order. -/
theorem C4_counterexample :
    c4Field.required = true ∧ c4Field.default = Value.VInt 5 ∧
      _validate_data [] c4Model = .error (requiredErr "qty") :=
  ⟨rfl, rfl, rfl⟩

/-- **C4** (amended): for every field, `_validate_data` checks
required-and-absent first and only then inserts the default, so a required
field that is absent from the payload fails with the missing-required error
regardless of whether it has a default; in particular a model whose first
field is required and absent fails as a whole. -/
theorem C4_required_check_precedes_defaulting (f : DataField) (d : Dict)
    (model : DataModel) (rest : List DataField)
    (hreq : f.required = true) (habs : hasKey d f.name = false) :
    validateField d f = .error (requiredErr f.name) ∧
      (model.fields = f :: rest →
        _validate_data d model = .error (requiredErr f.name)) := by
  have h1 : validateField d f = .error (requiredErr f.name) := by
    rw [validateField]
    simp [hreq, habs]
  refine ⟨h1, fun hm => ?_⟩
  simp [_validate_data, hm, validateFields, h1]

/-- Witness for C4 at the concrete field/model (required `qty` with default
5, empty payload). -/
theorem C4_witness :
    c4Field.required = true ∧ hasKey [] c4Field.name = false ∧
      (validateField [] c4Field = .error (requiredErr c4Field.name) ∧
        (c4Model.fields = c4Field :: [] →
          _validate_data [] c4Model = .error (requiredErr c4Field.name))) :=
  ⟨rfl, rfl, C4_required_check_precedes_defaulting c4Field [] c4Model [] rfl rfl⟩

/-! ## Claim C5 -/

/-- **C5**: when the payload fails schema validation, `add_data` returns the
failure sentinel and the state is returned untouched — no record row, no
transaction-log row, no staged ledger transaction. -/
theorem C5_add_data_failure_leaves_state_unchanged (st : DBState)
    (model_name : String) (data : Dict) (model : DataModel) (e : String)
    (record_id : String) (now : Int) (transaction_id : String) (txnow : Int)
    (hm : lookupModel st.data_models model_name = some model)
    (hv : _validate_data data model = .error e) :
    add_data st model_name data record_id now transaction_id txnow =
      (st, none) := by
  simp [add_data, hm, hv]

/-- Witness for C5: `add_record("Item", \x7b\x7d)` on the concrete store. -/
theorem C5_witness :
    lookupModel itemState.data_models "Item" = some itemModel ∧
    _validate_data [] itemModel = .error (requiredErr "qty") ∧
    add_data itemState "Item" [] "r1" 10 "t1" 11 = (itemState, none) :=
  ⟨rfl, rfl,
   C5_add_data_failure_leaves_state_unchanged itemState "Item" [] itemModel
     (requiredErr "qty") "r1" 10 "t1" 11 rfl rfl⟩

/-! ## Claim C6 -/

/-- **C6**: a successful seal of a non-empty pending list builds the block at
index `len(chain)` with exactly the pending transactions and the tip's hash
as `previous_hash`, appends it (chain grows by one), and resets pending to
exactly the one reward transaction `system -> miner` of `mining_reward`. -/
theorem C6_seal_appends_block_and_resets_pending (H : HashFn) (fuel : Nat)
    (bc : Blockchain) (miner : String) (ts ts2 : Int) (tip b : Block)
    (bc' : Blockchain)
    (hne : bc.pending_transactions ≠ [])
    (htip : bc.chain.getLast? = some tip)
    (h : mine_pending_transactions H fuel bc miner ts ts2 = some (bc', b)) :
    b.index = bc.chain.length ∧
    b.transactions = bc.pending_transactions ∧
    b.previous_hash = tip.hash ∧
    bc'.chain = bc.chain ++ [b] ∧
    bc'.chain.length = bc.chain.length + 1 ∧
    bc'.pending_transactions =
      [{ sender := "system", recipient := miner, amount := bc.mining_reward,
         data := .VDict [], timestamp := ts2 }] := by
  rw [mine_pending_transactions, htip] at h
  simp only [] at h
  cases hmb : mine_block H bc.difficulty fuel
      (Block.make H bc.chain.length bc.pending_transactions ts tip.hash 0) with
  | none =>
    rw [hmb] at h
    exact absurd h (by simp)
  | some b2 =>
    rw [hmb] at h
    simp at h
    obtain ⟨hbc', hb⟩ := h
    obtain ⟨hi, htx, hts, hph⟩ :=
      mine_block_preserves H bc.difficulty fuel _ _ hmb
    subst hb
    refine ⟨hi, htx, hph, ?_, ?_, ?_⟩
    · rw [← hbc']
    · rw [← hbc']
      simp
    · rw [← hbc']

/-- Witness for C6: sealing the difficulty-0 ledger `bcW` with miner `"m"`. -/
theorem C6_witness :
    bcW.pending_transactions ≠ [] ∧
    (c6block.index = bcW.chain.length ∧
     c6block.transactions = bcW.pending_transactions ∧
     c6block.previous_hash = (Block.make Hconst 0 [] 0 "0" 0).hash ∧
     c6bc'.chain = bcW.chain ++ [c6block] ∧
     c6bc'.chain.length = bcW.chain.length + 1 ∧
     c6bc'.pending_transactions =
       [{ sender := "system", recipient := "m", amount := bcW.mining_reward,
          data := .VDict [], timestamp := 8 }]) :=
  ⟨by simp [bcW],
   C6_seal_appends_block_and_resets_pending Hconst 3 bcW "m" 7 8
     (Block.make Hconst 0 [] 0 "0" 0) c6block c6bc' (by simp [bcW]) rfl rfl⟩

/-! ## Claim C7 -/

/-- **C7**: updating an existing record with a payload that validates against
its model replaces the stored payload wholesale (fields absent from the new
payload are dropped), sets `updated_at`, and stages a `data_update` ledger
transaction embedding both the previous and the new payload. -/
theorem C7_update_replaces_payload_wholesale (st : DBState)
    (record_id : String) (data : Dict) (now : Int) (transaction_id : String)
    (txnow : Int) (row : RecordRow) (m : DataModel) (data' : Dict)
    (hfind : findRecord st.data_records record_id = some row)
    (hmod : lookupModel st.data_models row.model_name = some m)
    (hval : _validate_data data m = .ok data') :
    (update_data st record_id data now transaction_id txnow).2 = true ∧
    (update_data st record_id data now transaction_id txnow).1.data_records =
      st.data_records.map (fun r =>
        if r.id == record_id then { r with data := data', updated_at := now }
        else r) ∧
    (update_data st record_id data now transaction_id
        txnow).1.blockchain_transactions =
      st.blockchain_transactions ++
        [{ id := transaction_id, transaction_type := "data_update",
           data_id := some (.VStr record_id),
           model_name := some (.VStr row.model_name),
           transaction_data := innerTxDict transaction_id "data_update"
             (.VDict (dataUpdatePayload record_id row.model_name row.data
               data' now)) txnow,
           timestamp := txnow, block_index := none }] ∧
    (update_data st record_id data now transaction_id
        txnow).1.blockchain.pending_transactions =
      st.blockchain.pending_transactions ++
        [{ sender := "system", recipient := "system", amount := 0,
           data := innerTxDict transaction_id "data_update"
             (.VDict (dataUpdatePayload record_id row.model_name row.data
               data' now)) txnow,
           timestamp := txnow }] := by
  simp only [update_data, hfind, hmod, hval, _add_to_blockchain,
    add_transaction]
  refine ⟨trivial, trivial, ?_, trivial⟩
  simp [dataUpdatePayload, dictLookup]

/-- Witness for C7: a record with fields `{a, b}` updated with payload `{a}`
stores only `{a}` afterwards (wholesale replace) and reports success. -/
theorem C7_witness :
    (update_data c7State "r1" [("a", .VStr "x")] 9 "t1" 10).2 = true ∧
    (update_data c7State "r1" [("a", .VStr "x")] 9 "t1" 10).1.data_records =
      [{ c7row with data := [("a", .VStr "x")], updated_at := 9 }] := by
  have h := C7_update_replaces_payload_wholesale c7State "r1"
    [("a", .VStr "x")] 9 "t1" 10 c7row abModel [("a", .VStr "x")] rfl rfl rfl
  exact ⟨h.1, (h.2.1).trans rfl⟩

/-! ## Claim C8 -/

/-- **C8**: `search_data` returns a record iff it is among the (model-filtered)
rows and satisfies every criterion, where a criterion with an absent key is a
non-match, two strings match by case-insensitive substring (criterion inside
stored value), and any other combination matches only under Python equality —
so criterion `"30"` (text) never matches a stored integer `30`. -/
theorem C8_search_is_conjunctive_spec_match (st : DBState)
    (model_name : Option String) (criteria : List (String × Value))
    (r : RecordRow) :
    r ∈ search_data st model_name criteria ↔
      r ∈ get_all_data st model_name ∧
        ∀ kv ∈ criteria, spec_criterion_match r.data kv.1 kv.2 = true := by
  cases criteria with
  | nil => simp [search_data]
  | cons kv rest =>
    rw [search_data]
    simp only [List.isEmpty_cons, Bool.false_eq_true, if_false,
      List.mem_filter, matchesCriteria_iff_all]
    constructor
    · rintro ⟨h1, h2⟩
      exact ⟨h1, fun x hx => (criterionMatch_eq_spec r.data x.1 x.2) ▸ h2 x hx⟩
    · rintro ⟨h1, h2⟩
      exact ⟨h1, fun x hx => (criterionMatch_eq_spec r.data x.1 x.2) ▸ h2 x hx⟩

/-! ## Claim C9 -/

/-- **C9**: after every successful `mine_block()` the pending list holds
exactly the one reward transaction (so it is non-empty), and hence a
subsequent `mine_block()` call never takes the empty-pending no-op branch:
at difficulty 0 (where the search always exits at once) it always seals a
further block, containing exactly one transaction — the reward — when
nothing was staged in between, growing the chain by one. -/
theorem C9_mine_leaves_reward_pending (H : HashFn) (fuel : Nat) (st : DBState)
    (ts ts2 : Int) (st' : DBState) (s : MineSummary)
    (h : db_mine_block H fuel st ts ts2 = (st', some s)) :
    st'.blockchain.pending_transactions =
      [{ sender := "system", recipient := "system",
         amount := st.blockchain.mining_reward, data := .VDict [],
         timestamp := ts2 }] ∧
    st'.blockchain.pending_transactions ≠ [] ∧
    (st'.blockchain.difficulty = 0 →
      ∀ (H2 : HashFn) (fuel2 : Nat) (ts3 ts4 : Int),
        ∃ (st2 : DBState) (s2 : MineSummary),
          db_mine_block H2 fuel2 st' ts3 ts4 = (st2, some s2) ∧
          s2.transaction_count = 1 ∧
          st2.blockchain.chain.length = st'.blockchain.chain.length + 1) := by
  rw [db_mine_block] at h
  by_cases hemp : st.blockchain.pending_transactions.isEmpty
  · simp [hemp] at h
  · simp only [hemp, Bool.false_eq_true, if_false] at h
    cases hmp : mine_pending_transactions H fuel st.blockchain "system" ts ts2 with
    | none =>
      rw [hmp] at h
      simp at h
    | some pair =>
      obtain ⟨bc, block⟩ := pair
      rw [hmp] at h
      simp only [] at h
      obtain ⟨hbc', -, -, -⟩ :=
        mine_pending_result H fuel st.blockchain "system" ts ts2 bc block hmp
      have hst' : st'.blockchain = bc := by
        have h1 : (Prod.fst (α := DBState) (β := Option MineSummary)
            (st', some s)) = st' := rfl
        rw [← h] at h1
        simp only [] at h1
        rw [← h1, backfill_blockchain]
      have hpend : st'.blockchain.pending_transactions =
          [{ sender := "system", recipient := "system",
             amount := st.blockchain.mining_reward, data := .VDict [],
             timestamp := ts2 }] := by
        rw [hst', hbc']
      refine ⟨hpend, by rw [hpend]; simp, ?_⟩
      intro hd H2 fuel2 ts3 ts4
      have hne2 : st'.blockchain.pending_transactions.isEmpty = false := by
        rw [hpend]
        rfl
      have htip2 : st'.blockchain.chain.getLast? = some block := by
        rw [hst', hbc']
        exact List.getLast?_concat _
      obtain ⟨st2, s2, hrun, hcount, hlen⟩ :=
        db_mine_block_zero_difficulty H2 fuel2 st' ts3 ts4 block hd hne2 htip2
      refine ⟨st2, s2, hrun, ?_, hlen⟩
      rw [hcount, hpend]
      rfl

/-- Witness for C9: mining the concrete difficulty-0 store `c9State` leaves
exactly the reward pending, and a second `mine_block()` call seals again. -/
theorem C9_witness :
    c9Mined.1.blockchain.pending_transactions =
      [{ sender := "system", recipient := "system",
         amount := c9State.blockchain.mining_reward, data := .VDict [],
         timestamp := 8 }] ∧
    c9Mined.1.blockchain.pending_transactions ≠ [] ∧
    (c9Mined.1.blockchain.difficulty = 0 →
      ∀ (H2 : HashFn) (fuel2 : Nat) (ts3 ts4 : Int),
        ∃ (st2 : DBState) (s2 : MineSummary),
          db_mine_block H2 fuel2 c9Mined.1 ts3 ts4 = (st2, some s2) ∧
          s2.transaction_count = 1 ∧
          st2.blockchain.chain.length = c9Mined.1.blockchain.chain.length + 1) :=
  C9_mine_leaves_reward_pending Hconst 3 c9State 7 8 c9Mined.1
    { index := 1, hash := "h", timestamp := 7, transaction_count := 1 } rfl

/-! ## Claim C10 -/

/-- A successful dict lookup means the key is present. -/
theorem hasKey_of_lookup (k : String) (v : Value) :
    ∀ (d : Dict), dictLookup d k = some v → hasKey d k = true := by
  intro d
  induction d with
  | nil => intro h; exact absurd h (by simp [dictLookup])
  | cons kv rest ih =>
    obtain ⟨l, w⟩ := kv
    intro h
    rw [dictLookup] at h
    rw [hasKey]
    by_cases hl : l == k
    · simp [hl]
    · rw [if_neg hl] at h
      have h2 := ih h
      rw [hasKey] at h2
      simp [List.any_cons, hl, h2]

/-- **C10**: an integer-typed field accepts Python booleans — `isinstance(True,
int)` holds because `bool` is a subclass of `int` — so `_validate_data` does
not fail on a boolean value for an integer field, and `add_data` succeeds on
any payload whose validation succeeds. -/
theorem C10_integer_field_accepts_bool (f : DataField) (d : Dict) (b : Bool)
    (hty : f.type = "integer") (hval : dictLookup d f.name = some (.VBool b)) :
    pyIsInt (.VBool b) = true ∧
    validateField d f = .ok d ∧
    (∀ (st : DBState) (model_name : String) (model : DataModel) (data' : Dict)
        (record_id : String) (now : Int) (transaction_id : String)
        (txnow : Int),
      lookupModel st.data_models model_name = some model →
      _validate_data d model = .ok data' →
      (add_data st model_name d record_id now transaction_id txnow).2 =
        some record_id) := by
  have hk := hasKey_of_lookup f.name (.VBool b) d hval
  refine ⟨rfl, ?_, ?_⟩
  · rw [validateField]
    simp [hk, hty, hval, pyIsInt]
  · intro st model_name model data' record_id now transaction_id txnow hm hv
    simp [add_data, hm, hv]

/-- Witness for C10: `add_record("Item", \x7bqty: True\x7d)` succeeds against
the required integer field `qty`. -/
theorem C10_witness :
    qtyField.type = "integer" ∧
    dictLookup [("qty", .VBool true)] qtyField.name = some (.VBool true) ∧
    pyIsInt (.VBool true) = true ∧
    validateField [("qty", .VBool true)] qtyField = .ok [("qty", .VBool true)] ∧
    (add_data itemState "Item" [("qty", .VBool true)] "r1" 10 "t1" 11).2 =
      some "r1" := by
  have h := C10_integer_field_accepts_bool qtyField [("qty", .VBool true)]
    true rfl rfl
  exact ⟨rfl, rfl, h.1, h.2.1,
    h.2.2 itemState "Item" itemModel [("qty", .VBool true)] "r1" 10 "t1" 11
      rfl rfl⟩

end HyperDB
